import Mathlib

/-!
Shallow embedding of `src/core/observer/dep.js` (the reactive dependency
registry `Dep`, its module-level `uid` counter, and the evaluation context
stack `targetStack` / `Dep.target`), together with theorems settling the
frozen claims about it.

Modelling conventions:
* A watcher (consumer) is identified by its numeric `id : Nat`; the spec
  states ids are unique per instance, and `Dep` only ever stores references
  and compares/sorts by `id`, so the id is a faithful stand-in for the
  reference.
* `Dep.target` in JS ranges over `null` (its initial value), `undefined`
  (what `targetStack[targetStack.length - 1]` yields on an empty array, and
  a value `pushTarget()` may push), and watcher objects; `TargetVal` has one
  constructor for each.
* A watcher's `update()` may synchronously re-enter `addSub` / `removeSub`
  on the same Dep and may raise; an environment `upd : Nat → List DepAction × Bool`
  gives, per watcher id, the list of reentrant actions its `update()`
  performs on this Dep and whether it then raises.
* `process.env.NODE_ENV === 'production'` is the boolean `isProd`;
  `config.async` is the boolean `async`.
-/

namespace VueDep

/-- The `Dep` class: a numeric `id` and the subscriber array `subs`
(watchers stored by their ids). -/
structure Dep where
  id : Nat
  subs : List Nat
deriving DecidableEq, Repr

instance : Inhabited Dep := ⟨⟨0, []⟩⟩

/-- Modelled from the spec: the `remove` helper imported from
`src/core/util/index` is not among the provided sources. Per the spec,
`removeSub` "removes the first (and expected only) occurrence of `consumer`
from the subscriber sequence. No-op if absent." `List.erase` removes exactly
the first occurrence and leaves the list unchanged when the item is absent. -/
def remove (arr : List Nat) (item : Nat) : List Nat :=
  arr.erase item

/-- `addSub(sub)`: `this.subs.push(sub)` — append to the end of `subs`. -/
def Dep.addSub (d : Dep) (sub : Nat) : Dep :=
  { d with subs := d.subs ++ [sub] }

/-- `removeSub(sub)`: `remove(this.subs, sub)`. -/
def Dep.removeSub (d : Dep) (sub : Nat) : Dep :=
  { d with subs := remove d.subs sub }

/-- A JS value that `Dep.target` or a `targetStack` entry can hold:
`null`, `undefined`, or a watcher (by id). -/
inductive TargetVal where
  | nullV : TargetVal
  | undefinedV : TargetVal
  | watcher (id : Nat) : TargetVal
deriving DecidableEq, Repr

/-- JS truthiness of a `TargetVal`: watcher objects are truthy, `null` and
`undefined` are falsy. -/
def TargetVal.truthy : TargetVal → Bool
  | .watcher _ => true
  | _ => false

/-- The module-level mutable context: the `targetStack` array together with
the `Dep.target` static field. -/
structure TargetState where
  targetStack : List TargetVal
  target : TargetVal
deriving DecidableEq, Repr

/-- The module-load state: `targetStack` is the fresh empty array and
`Dep.target = null`. -/
def initTargetState : TargetState :=
  ⟨[], .nullV⟩

/-- `pushTarget(target)`: `targetStack.push(target); Dep.target = target`.
JS `push` appends at the end of the array. -/
def pushTarget (t : TargetVal) (s : TargetState) : TargetState :=
  { targetStack := s.targetStack ++ [t], target := t }

/-- `popTarget()`: `targetStack.pop(); Dep.target = targetStack[targetStack.length - 1]`.
`pop` on an empty array is a no-op, and indexing at `-1` yields `undefined`. -/
def popTarget (s : TargetState) : TargetState :=
  let st := s.targetStack.dropLast
  { targetStack := st, target := st.getLast?.getD .undefinedV }

/-- The externally visible collaborator call `depend()` makes, if any:
either nothing, or `Dep.target.addDep(this)` on the active watcher,
passing the Dep itself. -/
inductive DependEffect where
  | noop : DependEffect
  | callAddDep (watcherId : Nat) (dep : Dep) : DependEffect
deriving DecidableEq, Repr

/-- `depend()`: `if (Dep.target) { Dep.target.addDep(this) }`. It reads the
global context and either does nothing or calls the active watcher's
`addDep(this)`; it mutates neither the context nor the Dep itself. The
result packages the (unchanged) context, the (unchanged) Dep, and the
collaborator call performed. -/
def Dep.depend (d : Dep) (s : TargetState) : TargetState × Dep × DependEffect :=
  match s.target with
  | .watcher w => (s, d, .callAddDep w d)
  | _ => (s, d, .noop)

/-- A reentrant action a watcher's `update()` may perform on this Dep. -/
inductive DepAction where
  | addSubAct (w : Nat) : DepAction
  | removeSubAct (w : Nat) : DepAction
deriving DecidableEq, Repr

/-- Apply one reentrant action to the live `subs` array. -/
def applyAction (subs : List Nat) : DepAction → List Nat
  | .addSubAct w => subs ++ [w]
  | .removeSubAct w => remove subs w

/-- Outcome of the `notify()` iteration: the final live `subs`, the ordered
trace of watcher ids whose `update()` was invoked, and `some w` when
watcher `w`'s `update()` raised (propagating out of the loop). -/
structure RunResult where
  subs : List Nat
  trace : List Nat
  err : Option Nat
deriving DecidableEq, Repr

/-- The `for` loop of `notify()`: iterate over the frozen snapshot, invoking
each watcher's `update()` in turn. Each invocation first applies its
reentrant actions to the live `subs`, then, if it raises, the error
propagates and the loop is abandoned. -/
def runUpdates (upd : Nat → List DepAction × Bool) :
    List Nat → List Nat → RunResult
  | [], subs => ⟨subs, [], none⟩
  | w :: rest, subs =>
    let subs2 := (upd w).1.foldl applyAction subs
    if (upd w).2 then ⟨subs2, [w], some w⟩
    else
      let r := runUpdates upd rest subs2
      ⟨r.subs, w :: r.trace, r.err⟩

/-- JS `subs.sort((a, b) => a.id - b.id)`: ascending sort by id. Watchers are
represented by their ids, so this is the ascending sort of a `List Nat`;
the result of sorting a list of naturals ascending is unique independent of
the algorithm, and `List.insertionSort` computes it. -/
def sortSubs (subs : List Nat) : List Nat :=
  subs.insertionSort (· ≤ ·)

/-- The snapshot `notify()` iterates over: `const subs = this.subs.slice()`,
then sorted ascending by id exactly when
`process.env.NODE_ENV !== 'production' && !config.async`. -/
def snapshotOf (isProd async : Bool) (d : Dep) : List Nat :=
  if !isProd && !async then sortSubs d.subs else d.subs

/-- Result of `notify()`: the Dep with its (possibly reentrantly mutated)
subscriber array, the ordered invocation trace, and the propagated error
if a watcher's `update()` raised. -/
structure NotifyResult where
  dep : Dep
  trace : List Nat
  err : Option Nat
deriving DecidableEq, Repr

/-- `notify()`: snapshot `this.subs` (sorting the copy in dev non-async
mode), then invoke `update()` on each snapshot entry in order while
reentrant `addSub` / `removeSub` calls act on the live `this.subs`. -/
def Dep.notify (d : Dep) (upd : Nat → List DepAction × Bool)
    (isProd async : Bool) : NotifyResult :=
  let r := runUpdates upd (snapshotOf isProd async d) d.subs
  ⟨{ d with subs := r.subs }, r.trace, r.err⟩

/-- `let uid = 0; ... this.id = uid++`: constructing a Dep with the current
counter value yields the Dep (empty `subs`) and the incremented counter. -/
def newDep (uid : Nat) : Dep × Nat :=
  (⟨uid, []⟩, uid + 1)

/-- The sequence of Deps produced by `n` consecutive constructions starting
from counter value `u`. -/
def createDeps : Nat → Nat → List Dep
  | _, 0 => []
  | u, n + 1 => (newDep u).1 :: createDeps (newDep u).2 n

end VueDep

namespace VueDep

/-! Helper lemmas about the notify loop and the sorted snapshot. -/

/-- When no watcher in the snapshot raises, the loop invokes exactly the
snapshot, in snapshot order, and no error propagates. -/
theorem runUpdates_no_throw (upd : Nat → List DepAction × Bool) :
    ∀ (snap subs0 : List Nat), (∀ w ∈ snap, (upd w).2 = false) →
      (runUpdates upd snap subs0).trace = snap ∧
      (runUpdates upd snap subs0).err = none
  | [], _, _ => by simp [runUpdates]
  | w :: rest, subs0, h => by
    have hw : (upd w).2 = false := h w (List.mem_cons_self ..)
    have ih := runUpdates_no_throw upd rest ((upd w).1.foldl applyAction subs0)
      (fun v hv => h v (List.mem_cons_of_mem _ hv))
    simp [runUpdates, hw, ih.1, ih.2]

/-- When the first raising watcher in the snapshot is `w`, the loop invokes
the watchers before `w` and then `w` itself, and the error propagates. -/
theorem runUpdates_throw (upd : Nat → List DepAction × Bool) :
    ∀ (pre : List Nat) (w : Nat) (post subs0 : List Nat),
      (∀ v ∈ pre, (upd v).2 = false) → (upd w).2 = true →
      (runUpdates upd (pre ++ w :: post) subs0).trace = pre ++ [w] ∧
      (runUpdates upd (pre ++ w :: post) subs0).err = some w
  | [], w, post, subs0, _, hw => by simp [runUpdates, hw]
  | v :: pre, w, post, subs0, hpre, hw => by
    have hv : (upd v).2 = false := hpre v (List.mem_cons_self ..)
    have ih := runUpdates_throw upd pre w post ((upd v).1.foldl applyAction subs0)
      (fun u hu => hpre u (List.mem_cons_of_mem _ hu)) hw
    simp [runUpdates, hv, ih.1, ih.2]

/-- The snapshot is a permutation of the entry subscriber array. -/
theorem snapshotOf_perm (isProd async : Bool) (d : Dep) :
    List.Perm (snapshotOf isProd async d) d.subs := by
  unfold snapshotOf
  split
  · exact List.perm_insertionSort _ _
  · exact List.Perm.refl _

/-- The sorted snapshot is ascending. -/
theorem sorted_sortSubs (l : List Nat) : (sortSubs l).Sorted (· ≤ ·) :=
  List.sorted_insertionSort _ l

/-- In an ascending list, a smaller member occurs before a larger member. -/
theorem sorted_indexOf_lt {l : List Nat} (hs : l.Sorted (· ≤ ·))
    {a b : Nat} (ha : a ∈ l) (hb : b ∈ l) (hab : a < b) :
    l.indexOf a < l.indexOf b := by
  have hia : l.indexOf a < l.length := List.indexOf_lt_length.2 ha
  have hib : l.indexOf b < l.length := List.indexOf_lt_length.2 hb
  by_contra hcon
  push_neg at hcon
  rcases Nat.eq_or_lt_of_le hcon with heq | hlt
  · have h1 : l.get ⟨l.indexOf b, hib⟩ = b := List.indexOf_get hib
    have h2 : l.get ⟨l.indexOf a, hia⟩ = a := List.indexOf_get hia
    rw [show (⟨l.indexOf b, hib⟩ : Fin l.length) = ⟨l.indexOf a, hia⟩ from Fin.ext heq] at h1
    rw [h2] at h1
    omega
  · have hba := hs.rel_get_of_lt (a := ⟨l.indexOf b, hib⟩) (b := ⟨l.indexOf a, hia⟩)
      (Fin.mk_lt_mk.mpr hlt)
    rw [List.indexOf_get hib, List.indexOf_get hia] at hba
    omega

/-- When nothing raises, `notify()` traces exactly the snapshot. -/
theorem notify_trace_eq (d : Dep) (upd : Nat → List DepAction × Bool)
    (isProd async : Bool) (h : ∀ w ∈ d.subs, (upd w).2 = false) :
    (d.notify upd isProd async).trace = snapshotOf isProd async d ∧
    (d.notify upd isProd async).err = none := by
  have hmem : ∀ w ∈ snapshotOf isProd async d, (upd w).2 = false :=
    fun w hw => h w ((snapshotOf_perm isProd async d).mem_iff.mp hw)
  have hrun := runUpdates_no_throw upd (snapshotOf isProd async d) d.subs hmem
  exact ⟨hrun.1, hrun.2⟩

end VueDep

namespace VueDep

/-- An environment in which every watcher's `update()` performs no reentrant
action and never raises. -/
def updInert : Nat → List DepAction × Bool :=
  fun _ => ([], false)

/-- An environment in which watcher 1's `update()` raises and every other
watcher's `update()` is inert. -/
def updRaise1 : Nat → List DepAction × Bool :=
  fun w => ([], w == 1)

/-- An environment in which watcher 1's `update()` synchronously unsubscribes
itself, re-subscribes itself, and subscribes watcher 5 on the notifying Dep;
every other watcher's `update()` is inert. -/
def updReentrant : Nat → List DepAction × Bool :=
  fun w =>
    if w == 1 then ([.removeSubAct 1, .addSubAct 1, .addSubAct 5], false)
    else ([], false)

/-- The invariant the source maintains on the module context: `Dep.target`
equals the top of `targetStack`, or is falsy when the stack is empty. -/
def matchesTop (s : TargetState) : Bool :=
  match s.targetStack.getLast? with
  | some t => s.target == t
  | none => !s.target.truthy

/-- C4: with no active evaluation context (`Dep.target` is `null` or
`undefined`, both falsy), `depend()` is a no-op: the context, the Dep's
subscriber array, and all consumer bookkeeping are unchanged, and no
consumer operation is invoked. -/
theorem depend_no_active_target_noop (stack : List TargetVal) (d : Dep) :
    Dep.depend d ⟨stack, .nullV⟩ = (⟨stack, .nullV⟩, d, .noop) ∧
    Dep.depend d ⟨stack, .undefinedV⟩ = (⟨stack, .undefinedV⟩, d, .noop) :=
  ⟨rfl, rfl⟩

/-- C5: with an active watcher `w`, `depend()` invokes exactly `w.addDep(this)`
passing the Dep itself, and nothing else: the context and the Dep (in
particular its subscriber array) are returned unchanged, and the only
collaborator call is `addDep`, never `addSub`. -/
theorem depend_active_target_calls_addDep (stack : List TargetVal) (w : Nat) (d : Dep) :
    Dep.depend d ⟨stack, .watcher w⟩ = (⟨stack, .watcher w⟩, d, .callAddDep w d) :=
  rfl

/-- C7: `addSub(c)` appends `c` at the end of `subs`, leaves `id` (the only
other field) unchanged, and performs no deduplication: adding the same
consumer twice yields two occurrences. -/
theorem addSub_append_only (d : Dep) (c : Nat) :
    (d.addSub c).subs = d.subs ++ [c] ∧
    (d.addSub c).id = d.id ∧
    ((d.addSub c).addSub c).subs.count c = d.subs.count c + 2 := by
  refine ⟨rfl, rfl, ?_⟩
  simp [Dep.addSub]

/-- C10: `popTarget()` on an empty stack leaves the stack empty and sets
`Dep.target` to `undefined` (not the `null` it was initialized with at
module load), and a subsequent `depend()` still treats no consumer as
active. -/
theorem popTarget_empty_stack (t : TargetVal) (d : Dep) :
    popTarget ⟨[], t⟩ = ⟨[], .undefinedV⟩ ∧
    TargetVal.undefinedV ≠ TargetVal.nullV ∧
    initTargetState.target = TargetVal.nullV ∧
    Dep.depend d (popTarget ⟨[], t⟩) = (⟨[], .undefinedV⟩, d, .noop) := by
  exact ⟨rfl, by decide, rfl, rfl⟩

/-- C6: the context stack is LIFO with `Dep.target` tracking its top: from
any state satisfying the top-matching invariant, `pushTarget(X); pushTarget(Y);
popTarget()` leaves watcher `X` active (with `X` on top of the stack), and a
further `popTarget()` restores the stack and the previously active value —
the one current before the first push when the stack was nonempty, and a
falsy "none" value when the stack started empty. -/
theorem target_stack_lifo (s : TargetState) (X Y : Nat)
    (hinv : matchesTop s = true) :
    (popTarget (pushTarget (.watcher Y) (pushTarget (.watcher X) s))).target
      = .watcher X ∧
    (popTarget (pushTarget (.watcher Y) (pushTarget (.watcher X) s))).targetStack
      = s.targetStack ++ [.watcher X] ∧
    (popTarget (popTarget (pushTarget (.watcher Y) (pushTarget (.watcher X) s)))).targetStack
      = s.targetStack ∧
    (s.targetStack = [] →
      ((popTarget (popTarget (pushTarget (.watcher Y) (pushTarget (.watcher X) s)))).target).truthy
        = false) ∧
    (s.targetStack ≠ [] →
      (popTarget (popTarget (pushTarget (.watcher Y) (pushTarget (.watcher X) s)))).target
        = s.target) := by
  have h1 : popTarget (pushTarget (.watcher Y) (pushTarget (.watcher X) s)) =
      ⟨s.targetStack ++ [.watcher X], .watcher X⟩ := by
    simp [popTarget, pushTarget]
  have h2 : (popTarget ⟨s.targetStack ++ [.watcher X], .watcher X⟩).targetStack
      = s.targetStack := by
    simp [popTarget]
  have h3 : (popTarget ⟨s.targetStack ++ [.watcher X], .watcher X⟩).target
      = s.targetStack.getLast?.getD .undefinedV := by
    simp [popTarget]
  refine ⟨by rw [h1], by rw [h1], by rw [h1, h2], ?_, ?_⟩
  · intro hemp
    rw [h1, h3, hemp]
    rfl
  · intro hne
    rw [h1, h3]
    rcases hl : s.targetStack.getLast? with _ | t
    · exact absurd (List.getLast?_eq_none_iff.mp hl) hne
    · have hbeq : (s.target == t) = true := by
        simpa [matchesTop, hl] using hinv
      rw [Option.getD_some, eq_of_beq hbeq]

/-- Witness for `target_stack_lifo` at the module-load state with watchers
1 and 2. -/
theorem target_stack_lifo_witness :
    (popTarget (pushTarget (.watcher 2) (pushTarget (.watcher 1) initTargetState))).target
      = .watcher 1 ∧
    ((popTarget (popTarget (pushTarget (.watcher 2) (pushTarget (.watcher 1) initTargetState)))).target).truthy
      = false :=
  ⟨(target_stack_lifo initTargetState 1 2 (by decide)).1,
   (target_stack_lifo initTargetState 1 2 (by decide)).2.2.2.1 rfl⟩

end VueDep

namespace VueDep

/-- C8: `removeSub(c)` removes exactly the first occurrence of `c` from
`subs`, keeping every other element in its original relative order; it is a
no-op when `c` is absent; it never fails and leaves `id` unchanged. -/
theorem removeSub_first_occurrence (d : Dep) (c : Nat) :
    (∀ pre post, c ∉ pre → d.subs = pre ++ c :: post →
      (d.removeSub c).subs = pre ++ post) ∧
    (c ∉ d.subs → d.removeSub c = d) ∧
    (d.removeSub c).id = d.id := by
  refine ⟨?_, ?_, rfl⟩
  · intro pre post hpre hsubs
    simp only [Dep.removeSub, remove, hsubs]
    rw [List.erase_append_right _ hpre, List.erase_cons_head]
  · intro hmem
    simp [Dep.removeSub, remove, List.erase_of_not_mem hmem]

/-- Witness for `removeSub_first_occurrence`: removing 1 from `[1, 2, 1]`
deletes only the first occurrence, and removing an absent consumer changes
nothing. -/
theorem removeSub_first_occurrence_witness :
    ((Dep.mk 0 [1, 2, 1]).removeSub 1).subs = [2, 1] ∧
    (Dep.mk 5 [3]).removeSub 1 = Dep.mk 5 [3] :=
  ⟨(removeSub_first_occurrence ⟨0, [1, 2, 1]⟩ 1).1 [] [2, 1] (by decide) (by decide),
   (removeSub_first_occurrence ⟨5, [3]⟩ 1).2.1 (by decide)⟩

/-- The `i`-th Dep constructed in a run of consecutive constructions starting
at counter `u` carries id `u + i`. -/
theorem createDeps_getD : ∀ (n u i : Nat), i < n →
    (createDeps u n).getD i default = ⟨u + i, []⟩
  | 0, _, i, h => absurd h (Nat.not_lt_zero i)
  | _ + 1, u, 0, _ => by simp [createDeps, newDep]
  | n + 1, u, i + 1, h => by
    have ih := createDeps_getD n (u + 1) i (by omega)
    have harith : u + 1 + i = u + (i + 1) := by omega
    simp only [createDeps, newDep, List.getD_cons_succ, ih, harith]

/-- C9: ids are assigned from the module-level counter at construction, so
across any sequence of constructions a later Dep has a strictly greater id
(hence ids are unique per instance), and no operation of the class —
`addSub`, `removeSub`, or `notify` — ever changes a Dep's id. -/
theorem dep_ids_unique_monotonic (u n i j : Nat) (hij : i < j) (hj : j < n) :
    ((createDeps u n).getD i default).id < ((createDeps u n).getD j default).id ∧
    (∀ (d : Dep) (c : Nat), (d.addSub c).id = d.id ∧ (d.removeSub c).id = d.id) ∧
    ∀ (d : Dep) (upd : Nat → List DepAction × Bool) (p a : Bool),
      (d.notify upd p a).dep.id = d.id := by
  refine ⟨?_, fun d c => ⟨rfl, rfl⟩, fun d upd p a => rfl⟩
  rw [createDeps_getD n u i (by omega), createDeps_getD n u j hj]
  show u + i < u + j
  omega

/-- Witness for `dep_ids_unique_monotonic`: among three Deps constructed in
sequence from counter 0, the first has a smaller id than the third. -/
theorem dep_ids_unique_monotonic_witness :
    ((createDeps 0 3).getD 0 default).id < ((createDeps 0 3).getD 2 default).id :=
  (dep_ids_unique_monotonic 0 3 0 2 (by decide) (by decide)).1

/-- C2: a single `notify()` call invokes `update()` exactly once on each
consumer subscribed at entry and on no other consumer, for every choice of
reentrant `addSub` / `removeSub` behavior of the subscribers' updates and in
every execution mode, provided no update raises; no error propagates. -/
theorem notify_delivers_entry_snapshot (d : Dep) (upd : Nat → List DepAction × Bool)
    (isProd async : Bool)
    (hq : ∀ w ∈ d.subs, (upd w).2 = false) (hnd : d.subs.Nodup) :
    (∀ w ∈ d.subs, (d.notify upd isProd async).trace.count w = 1) ∧
    (∀ w, w ∉ d.subs → (d.notify upd isProd async).trace.count w = 0) ∧
    (d.notify upd isProd async).err = none := by
  have hperm := snapshotOf_perm isProd async d
  have hrun := notify_trace_eq d upd isProd async hq
  refine ⟨?_, ?_, hrun.2⟩
  · intro w hw
    rw [hrun.1, hperm.count_eq]
    exact List.count_eq_one_of_mem hnd hw
  · intro w hw
    rw [hrun.1, hperm.count_eq]
    exact List.count_eq_zero_of_not_mem hw

/-- Witness for `notify_delivers_entry_snapshot`: notifying `[2, 1]` while
watcher 1's update reentrantly unsubscribes itself, re-subscribes itself and
subscribes watcher 5 still delivers exactly one update to watcher 1, one to
watcher 2, and none to watcher 5. -/
theorem notify_delivers_entry_snapshot_witness :
    ((Dep.mk 0 [2, 1]).notify updReentrant false false).trace.count 1 = 1 ∧
    ((Dep.mk 0 [2, 1]).notify updReentrant false false).trace.count 5 = 0 :=
  ⟨(notify_delivers_entry_snapshot ⟨0, [2, 1]⟩ updReentrant false false
      (by decide) (by decide)).1 1 (by decide),
   (notify_delivers_entry_snapshot ⟨0, [2, 1]⟩ updReentrant false false
      (by decide) (by decide)).2.1 5 (by decide)⟩

end VueDep

namespace VueDep

/-- Counterexample to C1 as stated: with the async flag false but
`NODE_ENV === 'production'` (first argument of `notify` true), the snapshot
is not sorted — subscribers with ids 2 and 1 inserted in that order are
updated in insertion order `[2, 1]`, so the subscriber with the smaller id
(1) is updated after the one with the larger id (2). -/
theorem notify_ascending_order_counterexample :
    (1 : Nat) ∈ (Dep.mk 0 [2, 1]).subs ∧
    (2 : Nat) ∈ (Dep.mk 0 [2, 1]).subs ∧
    ((Dep.mk 0 [2, 1]).notify updInert true false).trace = [2, 1] ∧
    ¬ (((Dep.mk 0 [2, 1]).notify updInert true false).trace.indexOf 1 <
       ((Dep.mk 0 [2, 1]).notify updInert true false).trace.indexOf 2) := by
  decide

/-- C1 (amended): in a development build (`NODE_ENV !== 'production'`) with
the async flag false, a single `notify()` call invokes subscribers' updates
in ascending id order: for subscribers `a < b` at entry (and no raising
update), `a`'s update is invoked strictly before `b`'s, regardless of
insertion order. -/
theorem notify_sync_dev_ascending_order (d : Dep)
    (upd : Nat → List DepAction × Bool) (a b : Nat)
    (hq : ∀ w ∈ d.subs, (upd w).2 = false)
    (ha : a ∈ d.subs) (hb : b ∈ d.subs) (hab : a < b) :
    (d.notify upd false false).trace.indexOf a <
      (d.notify upd false false).trace.indexOf b := by
  have hrun := notify_trace_eq d upd false false hq
  rw [hrun.1]
  have hsnap : snapshotOf false false d = sortSubs d.subs := by
    simp [snapshotOf]
  rw [hsnap]
  exact sorted_indexOf_lt (sorted_sortSubs d.subs)
    ((List.perm_insertionSort _ _).mem_iff.mpr ha)
    ((List.perm_insertionSort _ _).mem_iff.mpr hb) hab

/-- Witness for `notify_sync_dev_ascending_order`: with subscribers inserted
as `[3, 1]`, the dev non-async `notify()` updates watcher 1 before
watcher 3. -/
theorem notify_sync_dev_ascending_order_witness :
    ((Dep.mk 0 [3, 1]).notify updInert false false).trace.indexOf 1 <
      ((Dep.mk 0 [3, 1]).notify updInert false false).trace.indexOf 3 :=
  notify_sync_dev_ascending_order ⟨0, [3, 1]⟩ updInert 1 3
    (by decide) (by decide) (by decide) (by decide)

/-- Counterexample to C3 as stated: in dev non-async mode with subscribers
`[1, 2]`, watcher 1's update raises; watcher 2 — subscribed and later in the
snapshot — is never invoked, and the error propagates out of `notify()`
instead of being contained. -/
theorem notify_error_isolation_counterexample :
    (2 : Nat) ∈ (Dep.mk 0 [1, 2]).subs ∧
    ((Dep.mk 0 [1, 2]).notify updRaise1 false false).trace = [1] ∧
    (2 : Nat) ∉ ((Dep.mk 0 [1, 2]).notify updRaise1 false false).trace ∧
    ((Dep.mk 0 [1, 2]).notify updRaise1 false false).err = some 1 := by
  decide

/-- C3 (amended): `notify()` performs no per-subscriber error isolation —
when `w` is the first subscriber in the snapshot whose `update()` raises,
the subscribers before `w` and `w` itself are invoked, the iteration aborts
(subscribers after `w` get no update), and the error propagates out of
`notify()`. -/
theorem notify_aborts_on_error (d : Dep) (upd : Nat → List DepAction × Bool)
    (isProd async : Bool) (pre : List Nat) (w : Nat) (post : List Nat)
    (hsnap : snapshotOf isProd async d = pre ++ w :: post)
    (hpre : ∀ v ∈ pre, (upd v).2 = false) (hw : (upd w).2 = true) :
    (d.notify upd isProd async).trace = pre ++ [w] ∧
    (d.notify upd isProd async).err = some w := by
  have hrun := runUpdates_throw upd pre w post d.subs hpre hw
  constructor
  · show (runUpdates upd (snapshotOf isProd async d) d.subs).trace = _
    rw [hsnap]
    exact hrun.1
  · show (runUpdates upd (snapshotOf isProd async d) d.subs).err = _
    rw [hsnap]
    exact hrun.2

/-- Witness for `notify_aborts_on_error`: with subscribers `[1, 2]` and
watcher 1's update raising first, only watcher 1 is invoked and the error
propagates. -/
theorem notify_aborts_on_error_witness :
    ((Dep.mk 0 [1, 2]).notify updRaise1 false false).trace = [1] ∧
    ((Dep.mk 0 [1, 2]).notify updRaise1 false false).err = some 1 :=
  notify_aborts_on_error ⟨0, [1, 2]⟩ updRaise1 false false [] 1 [2]
    (by decide) (by decide) (by decide)

end VueDep
